import Mathlib

/-!
Verification of `moto/core/authentication.py`: credential resolution,
signature checking and IAM policy evaluation, shallowly embedded in Lean.
Request headers and request data (Python dicts of strings) are modelled as
association lists; Python exceptions become explicit error values.
-/

namespace Moto

/-- Tri-state permission result, mirroring the `PermissionResult` enum. -/
inductive PermissionResult where
  | PERMITTED
  | DENIED
  | NEUTRAL
  deriving DecidableEq, Repr

/-! ## Pattern matching (`IAMPolicyStatement._match`)

The source builds a Python regular expression from the pattern by
`pattern.replace("*", ".*")` and matches it anchored (`re.match` with
`^pattern$`).  We model the fragment of Python `re` semantics that such
patterns exercise: literal characters, `.` (any character except a
newline) and the postfix repetition `*`.  Python's `$` also accepts a
single trailing newline, which `pyAtEnd` reproduces. -/

/-- End-of-input test of an anchored Python regex: `$` matches at the end
of the string or just before a single trailing newline. -/
def pyAtEnd (s : List Char) : Bool := s.isEmpty || s == ['\n']

/-- One-character regex atom: `.` matches any character except `'\n'`
(Python default, no DOTALL); any other character matches itself. -/
def matchOne (c x : Char) : Bool := if c = '.' then x != '\n' else c == x

/-- Kleene-star matching for the atom `c`, with continuation `k` for the
rest of the regex: succeeds if `k` succeeds after `c` consumes zero or
more matching characters. -/
def matchStarK (c : Char) (k : List Char → Bool) : List Char → Bool
  | [] => k []
  | x :: xs => k (x :: xs) || (matchOne c x && matchStarK c k xs)

/-- Anchored matching of a regex (given as its character list) against a
string: models `re.match("^" + p + "$", s)` for the regex fragment
described above. -/
def matchHere : List Char → List Char → Bool
  | [], s => pyAtEnd s
  | c :: q :: ps, s =>
      if q = '*' then matchStarK c (matchHere ps) s
      else
        match s with
        | [] => false
        | x :: xs => matchOne c x && matchHere (q :: ps) xs
  | [c], s =>
      match s with
      | [] => false
      | x :: xs => matchOne c x && matchHere [] xs

/-- `pattern.replace("*", ".*")` on the character list of the pattern. -/
def replaceStarChars : List Char → List Char
  | [] => []
  | c :: cs => if c = '*' then '.' :: '*' :: replaceStarChars cs else c :: replaceStarChars cs

/-- `IAMPolicyStatement._match(pattern, string)`: replace every `*` by
`.*` and match the result as an anchored regular expression. -/
def IAMPolicyStatement_match (pattern string : String) : Bool :=
  matchHere (replaceStarChars pattern.data) string.data

/-! Spec-side matcher, written from the specification's words: a
glob-style language in which `*` (matching any substring, including the
empty one) is the *only* special character, full-string and
case-sensitive.  Used to compare the code's matcher against the claim. -/

/-- Glob `*`: consume any prefix of the string, then continue with `k`. -/
def globStarK (k : List Char → Bool) : List Char → Bool
  | [] => k []
  | x :: xs => k (x :: xs) || globStarK k xs

/-- Glob matching in which `*` is the only special character. -/
def specGlobMatch : List Char → List Char → Bool
  | [], s => s.isEmpty
  | c :: ps, s =>
      if c = '*' then globStarK (specGlobMatch ps) s
      else
        match s with
        | [] => false
        | x :: xs => c == x && specGlobMatch ps xs

/-- String wrapper for `specGlobMatch`. -/
def specGlobMatchS (pattern string : String) : Bool :=
  specGlobMatch pattern.data string.data

/-- Characters occurring in well-formed IAM action names and patterns:
alphanumerics, `:`, `-` and `_`.  None of them is special in a Python
regular expression. -/
def isActionChar (c : Char) : Bool := c.isAlphanum || c == ':' || c == '-' || c == '_'

/-- The output of `replaceStarChars` never starts with `'*'`: every `*`
in the input is emitted as `'.' :: '*' :: _`. -/
theorem replaceStarChars_head_ne_star (p : List Char) (q : Char) (t : List Char)
    (h : replaceStarChars p = q :: t) : q ≠ '*' := by
  cases p with
  | nil => simp [replaceStarChars] at h
  | cons c cs =>
      by_cases hc : c = '*'
      · subst hc
        simp [replaceStarChars] at h
        intro hq
        rw [← h.1] at hq
        exact absurd hq (by decide)
      · simp [replaceStarChars, hc] at h
        intro hq
        rw [← h.1] at hq
        exact hc hq

/-- Unfolding of `matchHere` on a regex starting with a literal atom
(one whose following character, if any, is not a `*` quantifier). -/
theorem matchHere_cons_lit (c : Char) (t s : List Char)
    (ht : ∀ q ps, t = q :: ps → q ≠ '*') :
    matchHere (c :: t) s =
      (match s with
       | [] => false
       | x :: xs => matchOne c x && matchHere t xs) := by
  cases t with
  | nil => cases s <;> simp [matchHere]
  | cons q ps =>
      have hq : q ≠ '*' := ht q ps rfl
      cases s <;> simp [matchHere, hq]

/-- On patterns built only from action characters and `*`, and strings
free of newlines, the code's regex matcher agrees with the glob language
in which `*` is the only special character. -/
theorem matchHere_replaceStar (p : List Char)
    (hp : ∀ a ∈ p, isActionChar a = true ∨ a = '*') :
    ∀ s : List Char, '\n' ∉ s →
      matchHere (replaceStarChars p) s = specGlobMatch p s := by
  induction p with
  | nil =>
      intro s hs
      cases s with
      | nil => simp [replaceStarChars, matchHere, pyAtEnd, specGlobMatch]
      | cons x xs =>
          have hx : x ≠ '\n' := fun h => hs (h ▸ List.mem_cons_self x xs)
          simp [replaceStarChars, matchHere, pyAtEnd, specGlobMatch]
          intro h
          exact absurd h hx
  | cons c cs ih =>
      have hcs : ∀ a ∈ cs, isActionChar a = true ∨ a = '*' :=
        fun a ha => hp a (List.mem_cons_of_mem c ha)
      have ihs := ih hcs
      by_cases hc : c = '*'
      · subst hc
        intro s
        induction s with
        | nil =>
            intro _
            have h0 : matchHere (replaceStarChars cs) [] = specGlobMatch cs [] :=
              ihs [] (by simp)
            simp [replaceStarChars, matchHere, matchStarK, specGlobMatch, globStarK, h0]
        | cons x xs ihx =>
            intro hs
            have hx : x ≠ '\n' := fun h => hs (h ▸ List.mem_cons_self x xs)
            have hxs : '\n' ∉ xs := fun h => hs (List.mem_cons_of_mem x h)
            have h1 := ihs (x :: xs) hs
            have h2 := ihx hxs
            have hx' : (x != '\n') = true := by simp [hx]
            simp [replaceStarChars, matchHere, specGlobMatch] at h2
            simp [replaceStarChars, matchHere, matchStarK, specGlobMatch, globStarK,
              matchOne, hx', h1, h2]
      · intro s hs
        have hcA : isActionChar c = true := (hp c (List.mem_cons_self c cs)).resolve_right hc
        have hcd : c ≠ '.' := by
          intro h
          rw [h] at hcA
          exact absurd hcA (by decide)
        have hrw : replaceStarChars (c :: cs) = c :: replaceStarChars cs := by
          simp [replaceStarChars, hc]
        rw [hrw, matchHere_cons_lit c _ s (fun q ps h => replaceStarChars_head_ne_star cs q ps h)]
        cases s with
        | nil => simp [specGlobMatch, hc]
        | cons x xs =>
            have hxs : '\n' ∉ xs := fun h => hs (List.mem_cons_of_mem x h)
            simp [specGlobMatch, hc, matchOne, hcd, ihs xs hxs]

/-- The glob pattern `*` matches every string. -/
theorem specGlobMatch_star_all (s : List Char) : specGlobMatch ['*'] s = true := by
  have h : ∀ t : List Char, globStarK (fun u : List Char => u.isEmpty) t = true := by
    intro t
    induction t with
    | nil => simp [globStarK]
    | cons x xs ih => simp [globStarK, ih]
  simp [specGlobMatch, h]

/-! ## Policy statements and documents

A statement of a parsed policy document carries an `Effect` string and
either an `Action` or a `NotAction` element whose value is a single
pattern string or a list of pattern strings.  The normalization of the
incoming policy (default-version selection, JSON parsing) happens before
this point and is delegated to external collaborators, so a document is
modelled as its parsed list of statements. -/

/-- A statement element value: a single pattern string or a list of
pattern strings (the two shapes `_check_element_matches` handles). -/
inductive StrOrList where
  | single (s : String)
  | multi (l : List String)
  deriving DecidableEq, Repr

/-- A parsed policy statement: `usesNotAction` records whether the key
`"NotAction"` is present (otherwise `"Action"` is), `element` is the
value under that key and `effect` the value under `"Effect"`. -/
structure IAMPolicyStatement where
  usesNotAction : Bool
  element : StrOrList
  effect : String
  deriving DecidableEq, Repr

/-- A parsed policy document: its `"Statement"` list. -/
abbrev PolicyDocument := List IAMPolicyStatement

/-- `IAMPolicyStatement._check_element_matches`: a list element value
matches when some pattern in it matches, a string value when it matches
itself. -/
def check_element_matches (element : StrOrList) (value : String) : Bool :=
  match element with
  | .multi l => l.any (fun pat => IAMPolicyStatement_match pat value)
  | .single pat => IAMPolicyStatement_match pat value

/-- The `is_action_concerned` flag of
`IAMPolicyStatement.is_action_permitted`: a `NotAction` statement
concerns the action when the action matches no pattern of the element, an
`Action` statement when it matches some pattern. -/
def is_action_concerned (st : IAMPolicyStatement) (action : String) : Bool :=
  if st.usesNotAction then ! check_element_matches st.element action
  else check_element_matches st.element action

/-- `IAMPolicyStatement.is_action_permitted`: a concerned statement
yields `PERMITTED` when its effect is `"Allow"` and `DENIED` otherwise;
an unconcerned statement yields `NEUTRAL`. -/
def IAMPolicyStatement_is_action_permitted (st : IAMPolicyStatement) (action : String) :
    PermissionResult :=
  if is_action_concerned st action then
    if st.effect = "Allow" then .PERMITTED else .DENIED
  else .NEUTRAL

/-- The statement loop of `IAMPolicy.is_action_permitted`, with the
`permitted` accumulator: the first `DENIED` statement returns `DENIED`
at once; otherwise the loop remembers whether any statement permitted. -/
def IAMPolicy_is_action_permitted_go (action : String) :
    List IAMPolicyStatement → Bool → PermissionResult
  | [], permitted => if permitted then .PERMITTED else .NEUTRAL
  | st :: rest, permitted =>
      match IAMPolicyStatement_is_action_permitted st action with
      | .DENIED => .DENIED
      | .PERMITTED => IAMPolicy_is_action_permitted_go action rest true
      | .NEUTRAL => IAMPolicy_is_action_permitted_go action rest permitted

/-- `IAMPolicy.is_action_permitted` on a normalized document. -/
def IAMPolicy_is_action_permitted (document : PolicyDocument) (action : String) :
    PermissionResult :=
  IAMPolicy_is_action_permitted_go action document false

/-- Outcome of `IAMRequestBase._check_action_permitted_for_iam_user`:
either the method returns normally or it raises the flavor's
access-denied error. -/
inductive AuthzOutcome where
  | success
  | accessDenied
  deriving DecidableEq, Repr

/-- The policy loop of `_check_action_permitted_for_iam_user`: a document
evaluating to `DENIED` raises access-denied at once; otherwise the loop
remembers whether any document permitted, and raises access-denied at the
end when none did. -/
def check_action_permitted_go (action : String) :
    List PolicyDocument → Bool → AuthzOutcome
  | [], permitted => if permitted then .success else .accessDenied
  | d :: rest, permitted =>
      match IAMPolicy_is_action_permitted d action with
      | .DENIED => .accessDenied
      | .PERMITTED => check_action_permitted_go action rest true
      | .NEUTRAL => check_action_permitted_go action rest permitted

/-- `IAMRequestBase._check_action_permitted_for_iam_user`, over the
collected policy documents of the principal. -/
def check_action_permitted_for_iam_user (policies : List PolicyDocument) (action : String) :
    AuthzOutcome :=
  check_action_permitted_go action policies false

/-- A statement that concerns the action and whose effect is `"Deny"`
evaluates to `DENIED`. -/
theorem statement_denied_of_deny (st : IAMPolicyStatement) (action : String)
    (hc : is_action_concerned st action = true) (he : st.effect = "Deny") :
    IAMPolicyStatement_is_action_permitted st action = .DENIED := by
  simp [IAMPolicyStatement_is_action_permitted, hc, he]

/-- If some statement of a document evaluates to `DENIED`, the statement
loop returns `DENIED` whatever the accumulator holds. -/
theorem go_denied_of_exists (action : String) (stmts : List IAMPolicyStatement) (b : Bool)
    (h : ∃ st ∈ stmts, IAMPolicyStatement_is_action_permitted st action = .DENIED) :
    IAMPolicy_is_action_permitted_go action stmts b = .DENIED := by
  induction stmts generalizing b with
  | nil => simp at h
  | cons st rest ih =>
      obtain ⟨st', hmem', hd⟩ := h
      rcases List.mem_cons.mp hmem' with heq | hmem2
      · subst heq
        simp [IAMPolicy_is_action_permitted_go, hd]
      · cases hres : IAMPolicyStatement_is_action_permitted st action <;>
          simp [IAMPolicy_is_action_permitted_go, hres] <;>
          exact ih _ ⟨st', hmem2, hd⟩

/-- If every statement of a document is unconcerned, the statement loop
returns `PERMITTED` or `NEUTRAL` according to the accumulator. -/
theorem go_neutral_of_unconcerned (action : String) (stmts : List IAMPolicyStatement) (b : Bool)
    (h : ∀ st ∈ stmts, is_action_concerned st action = false) :
    IAMPolicy_is_action_permitted_go action stmts b = if b then .PERMITTED else .NEUTRAL := by
  induction stmts generalizing b with
  | nil => simp [IAMPolicy_is_action_permitted_go]
  | cons st rest ih =>
      have hst : IAMPolicyStatement_is_action_permitted st action = .NEUTRAL := by
        simp [IAMPolicyStatement_is_action_permitted, h st (List.mem_cons_self st rest)]
      simp [IAMPolicy_is_action_permitted_go, hst]
      exact ih b (fun s hs => h s (List.mem_cons_of_mem st hs))

/-- If no statement of a document evaluates to `DENIED`, the statement
loop started with a `true` accumulator returns `PERMITTED`. -/
theorem go_permitted_of_acc (action : String) (stmts : List IAMPolicyStatement)
    (h : ∀ st ∈ stmts, IAMPolicyStatement_is_action_permitted st action ≠ .DENIED) :
    IAMPolicy_is_action_permitted_go action stmts true = .PERMITTED := by
  induction stmts with
  | nil => simp [IAMPolicy_is_action_permitted_go]
  | cons st rest ih =>
      have hrest : ∀ s ∈ rest, IAMPolicyStatement_is_action_permitted s action ≠ .DENIED :=
        fun s hs => h s (List.mem_cons_of_mem st hs)
      cases hres : IAMPolicyStatement_is_action_permitted st action with
      | DENIED => exact absurd hres (h st (List.mem_cons_self st rest))
      | PERMITTED => simp [IAMPolicy_is_action_permitted_go, hres, ih hrest]
      | NEUTRAL => simp [IAMPolicy_is_action_permitted_go, hres, ih hrest]

/-- If some statement evaluates to `PERMITTED` and none to `DENIED`, the
statement loop returns `PERMITTED` whatever the accumulator holds. -/
theorem go_permitted_of_exists (action : String) (stmts : List IAMPolicyStatement) (b : Bool)
    (h1 : ∃ st ∈ stmts, IAMPolicyStatement_is_action_permitted st action = .PERMITTED)
    (h2 : ∀ st ∈ stmts, IAMPolicyStatement_is_action_permitted st action ≠ .DENIED) :
    IAMPolicy_is_action_permitted_go action stmts b = .PERMITTED := by
  induction stmts generalizing b with
  | nil => simp at h1
  | cons st rest ih =>
      have hrest : ∀ s ∈ rest, IAMPolicyStatement_is_action_permitted s action ≠ .DENIED :=
        fun s hs => h2 s (List.mem_cons_of_mem st hs)
      obtain ⟨st', hmem', hp'⟩ := h1
      rcases List.mem_cons.mp hmem' with heq | hmem2
      · subst heq
        simp [IAMPolicy_is_action_permitted_go, hp']
        exact go_permitted_of_acc action rest hrest
      · cases hres : IAMPolicyStatement_is_action_permitted st action with
        | DENIED => exact absurd hres (h2 st (List.mem_cons_self st rest))
        | PERMITTED =>
            simp [IAMPolicy_is_action_permitted_go, hres]
            exact go_permitted_of_acc action rest hrest
        | NEUTRAL =>
            simp [IAMPolicy_is_action_permitted_go, hres]
            exact ih b ⟨st', hmem2, hp'⟩ hrest

/-- If some attached document evaluates to `DENIED`, the policy loop
raises access-denied whatever the accumulator holds. -/
theorem agg_denied_of_exists (action : String) (policies : List PolicyDocument) (b : Bool)
    (h : ∃ d ∈ policies, IAMPolicy_is_action_permitted d action = .DENIED) :
    check_action_permitted_go action policies b = .accessDenied := by
  induction policies generalizing b with
  | nil => simp at h
  | cons d rest ih =>
      obtain ⟨d', hmem', hd⟩ := h
      rcases List.mem_cons.mp hmem' with heq | hmem2
      · subst heq
        simp [check_action_permitted_go, hd]
      · cases hres : IAMPolicy_is_action_permitted d action <;>
          simp [check_action_permitted_go, hres] <;>
          exact ih _ ⟨d', hmem2, hd⟩

/-- Claim C1: for every principal and action, if any statement concerning
the action in any attached policy document has effect Deny, the overall
authorization decision is Denied, regardless of any Allow statements
before or after it in the same or other documents. -/
theorem C1_deny_wins (policies : List PolicyDocument) (action : String)
    (h : ∃ d ∈ policies, ∃ st ∈ d,
        is_action_concerned st action = true ∧ st.effect = "Deny") :
    check_action_permitted_for_iam_user policies action = .accessDenied := by
  obtain ⟨d, hd, st, hst, hc, he⟩ := h
  exact agg_denied_of_exists action policies false
    ⟨d, hd, go_denied_of_exists action d false
      ⟨st, hst, statement_denied_of_deny st action hc he⟩⟩

/-- Witness for C1: a document with an Allow before a Deny for the same
action is still Denied overall. -/
theorem C1_deny_wins_witness :
    check_action_permitted_for_iam_user
      [[⟨false, .single "s3:*", "Allow"⟩, ⟨false, .single "s3:GetObject", "Deny"⟩]]
      "s3:GetObject" = .accessDenied :=
  C1_deny_wins _ _ (by decide)

/-- Claim C2: for every principal and action, if no attached policy
document evaluates to Permitted (in particular with zero attached
policies, or when every document is Neutral), the aggregated result is
Denied; the aggregator's codomain has no Neutral outcome. -/
theorem C2_default_deny (policies : List PolicyDocument) (action : String)
    (h : ∀ d ∈ policies, IAMPolicy_is_action_permitted d action ≠ .PERMITTED) :
    check_action_permitted_for_iam_user policies action = .accessDenied := by
  rw [check_action_permitted_for_iam_user]
  induction policies with
  | nil => simp [check_action_permitted_go]
  | cons d rest ih =>
      have hrest : ∀ x ∈ rest, IAMPolicy_is_action_permitted x action ≠ .PERMITTED :=
        fun x hx => h x (List.mem_cons_of_mem d hx)
      cases hres : IAMPolicy_is_action_permitted d action with
      | PERMITTED => exact absurd hres (h d (List.mem_cons_self d rest))
      | DENIED => simp [check_action_permitted_go, hres]
      | NEUTRAL => simp [check_action_permitted_go, hres, ih hrest]

/-- Witness for C2: a principal with zero attached policies is denied. -/
theorem C2_default_deny_witness :
    check_action_permitted_for_iam_user [] "s3:ListBucket" = .accessDenied :=
  C2_default_deny [] "s3:ListBucket" (by simp)

/-- Claim C4: a document in which no statement concerns the action
evaluates to Neutral; a document with at least one statement concerning
the action yielding Permitted and none yielding Denied evaluates to
Permitted. -/
theorem C4_document_results (document : PolicyDocument) (action : String) :
    ((∀ st ∈ document, is_action_concerned st action = false) →
        IAMPolicy_is_action_permitted document action = .NEUTRAL)
    ∧ ((∃ st ∈ document, IAMPolicyStatement_is_action_permitted st action = .PERMITTED) →
        (∀ st ∈ document, IAMPolicyStatement_is_action_permitted st action ≠ .DENIED) →
        IAMPolicy_is_action_permitted document action = .PERMITTED) := by
  constructor
  · intro h
    rw [IAMPolicy_is_action_permitted, go_neutral_of_unconcerned action document false h]
    simp
  · intro h1 h2
    exact go_permitted_of_exists action document false h1 h2

/-- Witness for C4: a document whose only statement is about another
action is Neutral; one whose Allow statement matches is Permitted. -/
theorem C4_document_results_witness :
    IAMPolicy_is_action_permitted [⟨false, .single "s3:Put*", "Allow"⟩] "s3:GetObject"
        = .NEUTRAL
    ∧ IAMPolicy_is_action_permitted [⟨false, .single "s3:Get*", "Allow"⟩] "s3:GetObject"
        = .PERMITTED :=
  ⟨(C4_document_results [⟨false, .single "s3:Put*", "Allow"⟩] "s3:GetObject").1 (by decide),
   (C4_document_results [⟨false, .single "s3:Get*", "Allow"⟩] "s3:GetObject").2
     (by decide) (by decide)⟩

/-- Counterexample to claim C3: the claim says `*` is the only special
character of the pattern language, so pattern `"a."` should match only
the literal action `"a."`; but the code turns the pattern into the
regular expression `^a.$` without escaping the dot, which matches the
action `"ab"`. -/
theorem C3_counterexample :
    IAMPolicyStatement_match "a." "ab" = true
    ∧ specGlobMatchS "a." "ab" = false := by
  constructor
  · decide
  · decide

/-- Claim C3 as amended: the matcher applies the pattern as an anchored
Python regular expression after replacing each `*` with `.*`, so regex
metacharacters other than `*` keep their regex meaning; on patterns built
only from alphanumerics, `:`, `-`, `_` and `*`, and actions without
newline characters, it matches exactly the glob language where `*`
matches any substring, full-string and case-sensitively; in particular
pattern "s3:Get*" matches "s3:GetObject" and "s3:Get" but not
"s3:PutObject", and pattern "*" matches every newline-free action. -/
theorem C3_glob_matching :
    (∀ pattern action : String,
        (∀ a ∈ pattern.data, isActionChar a = true ∨ a = '*') →
        '\n' ∉ action.data →
        IAMPolicyStatement_match pattern action = specGlobMatchS pattern action)
    ∧ IAMPolicyStatement_match "s3:Get*" "s3:GetObject" = true
    ∧ IAMPolicyStatement_match "s3:Get*" "s3:Get" = true
    ∧ IAMPolicyStatement_match "s3:Get*" "s3:PutObject" = false
    ∧ (∀ action : String, '\n' ∉ action.data →
        IAMPolicyStatement_match "*" action = true) := by
  refine ⟨?_, by decide, by decide, by decide, ?_⟩
  · intro pattern action hp hs
    exact matchHere_replaceStar pattern.data hp action.data hs
  · intro action hs
    have h := matchHere_replaceStar ['*'] (by intro a ha; right; simpa using ha)
      action.data hs
    rw [IAMPolicyStatement_match]
    calc matchHere (replaceStarChars "*".data) action.data
        = specGlobMatch ['*'] action.data := h
      _ = true := specGlobMatch_star_all action.data

/-- Witness for C3 as amended: the glob equivalence and the universal
wildcard at concrete inputs. -/
theorem C3_glob_matching_witness :
    IAMPolicyStatement_match "s3:*" "s3:ListBucket" = specGlobMatchS "s3:*" "s3:ListBucket"
    ∧ IAMPolicyStatement_match "*" "iam:ListUsers" = true :=
  ⟨C3_glob_matching.1 "s3:*" "s3:ListBucket" (by decide) (by decide),
   C3_glob_matching.2.2.2.2 "iam:ListUsers" (by decide)⟩

/-! ## Credential resolution (`create_access_key` and the two access-key
classes)

Request headers and request data are Python dicts of strings, modelled
as association lists with first-match lookup.  The IAM and STS backends
are external read-only directories, passed in as the list of users (with
their access keys) and the list of active assumed-role sessions. -/

/-- A Python dict of strings (request headers or parsed request data). -/
abbrev StrMap := List (String × String)

/-- `d[key]` on a string dict: the value at the first matching key. -/
def hget (m : StrMap) (key : String) : Option String :=
  (m.find? (fun kv => kv.1 == key)).map (fun kv => kv.2)

/-- `key in d` on a string dict. -/
def hcontains (m : StrMap) (key : String) : Bool :=
  (hget m key).isSome

/-- An access key of an IAM user in the directory. -/
structure AccessKey where
  access_key_id : String
  secret_access_key : String
  deriving DecidableEq, Repr

/-- An IAM user of the directory, with its access keys. -/
structure IAMUser where
  name : String
  access_keys : List AccessKey
  deriving DecidableEq, Repr

/-- An active assumed-role session of the STS backend. -/
structure AssumedRole where
  access_key_id : String
  secret_access_key : String
  session_token : String
  arn : String
  session_name : String
  deriving DecidableEq, Repr

/-- The state built by `IAMUserAccessKey.__init__` on success. -/
structure IAMUserAccessKey where
  owner_user_name : String
  access_key_id : String
  secret_access_key : String
  deriving DecidableEq, Repr

/-- The state built by `AssumedRoleAccessKey.__init__` on success. -/
structure AssumedRoleAccessKey where
  access_key_id : String
  secret_access_key : String
  session_token : String
  owner_role_name : String
  session_name : String
  deriving DecidableEq, Repr

/-- How resolution can fail: `createAccessKeyFailure reason` models the
`CreateAccessKeyFailure` exception with its reason string, and
`keyError key` models an uncaught Python `KeyError` from an unguarded
dict access `headers[key]`. -/
inductive ResolutionError where
  | createAccessKeyFailure (reason : String)
  | keyError (key : String)
  deriving DecidableEq, Repr

/-- `IAMUserAccessKey.__init__`: scan all users for an access key with
the requested id; on the first match fail with `InvalidToken` when the
request carries a security-token header, else succeed; when no key of
any user matches, fail with `InvalidId`. -/
def IAMUserAccessKey_init (access_key_id : String) (headers : StrMap) :
    List IAMUser → Except ResolutionError IAMUserAccessKey
  | [] => .error (.createAccessKeyFailure "InvalidId")
  | u :: rest =>
      match u.access_keys.find? (fun k => k.access_key_id == access_key_id) with
      | some k =>
          if hcontains headers "X-Amz-Security-Token" then
            .error (.createAccessKeyFailure "InvalidToken")
          else
            .ok ⟨u.name, access_key_id, k.secret_access_key⟩
      | none => IAMUserAccessKey_init access_key_id headers rest

/-- `AssumedRoleAccessKey.__init__`: scan the active assumed-role
sessions for the requested id; on the first match read the
security-token header with an unguarded dict access (a missing header is
a `KeyError`) and fail with `InvalidToken` when it differs from the
session's token, else succeed; when no session matches, fail with
`InvalidId`. -/
def AssumedRoleAccessKey_init (access_key_id : String) (headers : StrMap) :
    List AssumedRole → Except ResolutionError AssumedRoleAccessKey
  | [] => .error (.createAccessKeyFailure "InvalidId")
  | r :: rest =>
      if r.access_key_id == access_key_id then
        match hget headers "X-Amz-Security-Token" with
        | none => .error (.keyError "X-Amz-Security-Token")
        | some tok =>
            if tok != r.session_token then
              .error (.createAccessKeyFailure "InvalidToken")
            else
              .ok ⟨access_key_id, r.secret_access_key, r.session_token,
                (r.arn.splitOn "/").getLastD "", r.session_name⟩
      else AssumedRoleAccessKey_init access_key_id headers rest

/-- Python's `str.startswith`, as a prefix test on the character lists. -/
def startswith (s pre : String) : Bool := pre.data.isPrefixOf s.data

/-- The principal variant `create_access_key` resolved. -/
inductive AccessKeyResult where
  | iamUser (k : IAMUserAccessKey)
  | assumedRole (k : AssumedRoleAccessKey)
  deriving DecidableEq, Repr

/-- `create_access_key`: resolve as an IAM user when the access key id
starts with `"AKIA"` or no security-token header is present, and as an
assumed role otherwise. -/
def create_access_key (access_key_id : String) (headers : StrMap)
    (iam_users : List IAMUser) (assumed_roles : List AssumedRole) :
    Except ResolutionError AccessKeyResult :=
  if startswith access_key_id "AKIA" || ! hcontains headers "X-Amz-Security-Token" then
    (IAMUserAccessKey_init access_key_id headers iam_users).map AccessKeyResult.iamUser
  else
    (AssumedRoleAccessKey_init access_key_id headers assumed_roles).map
      AccessKeyResult.assumedRole

/-- Claim C5: on the assumed-role path a matching access key id whose
stored session token differs from the request's security-token header
fails with `InvalidToken`; on the IAM-user path a matching key
accompanied by a security-token header fails with `InvalidToken`; on
either path an access key id matching no directory entry fails with
`InvalidId`. -/
theorem C5_resolution_errors :
    (∀ (access_key_id : String) (headers : StrMap) (assumed_roles : List AssumedRole)
        (v : String),
        hget headers "X-Amz-Security-Token" = some v →
        (∃ r ∈ assumed_roles, r.access_key_id = access_key_id) →
        (∀ r ∈ assumed_roles, r.access_key_id = access_key_id → r.session_token ≠ v) →
        AssumedRoleAccessKey_init access_key_id headers assumed_roles
          = .error (.createAccessKeyFailure "InvalidToken"))
    ∧ (∀ (access_key_id : String) (headers : StrMap) (iam_users : List IAMUser),
        hcontains headers "X-Amz-Security-Token" = true →
        (∃ u ∈ iam_users, ∃ k ∈ u.access_keys, k.access_key_id = access_key_id) →
        IAMUserAccessKey_init access_key_id headers iam_users
          = .error (.createAccessKeyFailure "InvalidToken"))
    ∧ (∀ (access_key_id : String) (headers : StrMap) (assumed_roles : List AssumedRole),
        (∀ r ∈ assumed_roles, r.access_key_id ≠ access_key_id) →
        AssumedRoleAccessKey_init access_key_id headers assumed_roles
          = .error (.createAccessKeyFailure "InvalidId"))
    ∧ (∀ (access_key_id : String) (headers : StrMap) (iam_users : List IAMUser),
        (∀ u ∈ iam_users, ∀ k ∈ u.access_keys, k.access_key_id ≠ access_key_id) →
        IAMUserAccessKey_init access_key_id headers iam_users
          = .error (.createAccessKeyFailure "InvalidId")) := by
  refine ⟨?_, ?_, ?_, ?_⟩
  · intro id headers roles v hv hex hall
    induction roles with
    | nil => simp at hex
    | cons r rest ih =>
        by_cases hr : r.access_key_id = id
        · have hne : r.session_token ≠ v := hall r (List.mem_cons_self r rest) hr
          have hbne : (v != r.session_token) = true := by
            simp [bne_iff_ne]
            exact fun h => hne h.symm
          simp [AssumedRoleAccessKey_init, hr, hv, hbne]
        · obtain ⟨r', hr', heq⟩ := hex
          have hmem2 : r' ∈ rest := by
            rcases List.mem_cons.mp hr' with h | h
            · exact absurd (h ▸ heq) hr
            · exact h
          have hrb : (r.access_key_id == id) = false := by simp [hr]
          simp [AssumedRoleAccessKey_init, hrb]
          exact ih ⟨r', hmem2, heq⟩ (fun x hx => hall x (List.mem_cons_of_mem r hx))
  · intro id headers users htok hex
    induction users with
    | nil => simp at hex
    | cons u rest ih =>
        cases hfind : u.access_keys.find? (fun k => k.access_key_id == id) with
        | some k => simp [IAMUserAccessKey_init, hfind, htok]
        | none =>
            obtain ⟨u', hu', k', hk', heq⟩ := hex
            have hmem2 : u' ∈ rest := by
              rcases List.mem_cons.mp hu' with h | h
              · subst h
                have := List.find?_eq_none.mp hfind k' hk'
                simp [heq] at this
              · exact h
            simp [IAMUserAccessKey_init, hfind]
            exact ih ⟨u', hmem2, k', hk', heq⟩
  · intro id headers roles hall
    induction roles with
    | nil => simp [AssumedRoleAccessKey_init]
    | cons r rest ih =>
        have hrb : (r.access_key_id == id) = false := by
          simp [hall r (List.mem_cons_self r rest)]
        simp [AssumedRoleAccessKey_init, hrb]
        exact ih (fun x hx => hall x (List.mem_cons_of_mem r hx))
  · intro id headers users hall
    induction users with
    | nil => simp [IAMUserAccessKey_init]
    | cons u rest ih =>
        have hfind : u.access_keys.find? (fun k => k.access_key_id == id) = none := by
          rw [List.find?_eq_none]
          intro k hk
          simp [hall u (List.mem_cons_self u rest) k hk]
        simp [IAMUserAccessKey_init, hfind]
        exact ih (fun x hx => hall x (List.mem_cons_of_mem u hx))

/-- Witness for C5: the four failure shapes at concrete directories. -/
theorem C5_resolution_errors_witness :
    AssumedRoleAccessKey_init "ASIAKEY" [("X-Amz-Security-Token", "tokenB")]
        [⟨"ASIAKEY", "secret", "tokenA", "arn:aws:sts::1:assumed-role/r/s", "s"⟩]
      = .error (.createAccessKeyFailure "InvalidToken")
    ∧ IAMUserAccessKey_init "AKIAKEY" [("X-Amz-Security-Token", "tok")]
        [⟨"alice", [⟨"AKIAKEY", "secret"⟩]⟩]
      = .error (.createAccessKeyFailure "InvalidToken")
    ∧ AssumedRoleAccessKey_init "ASIAKEY" []
        [⟨"OTHER", "secret", "tokenA", "arn", "s"⟩]
      = .error (.createAccessKeyFailure "InvalidId")
    ∧ IAMUserAccessKey_init "AKIAKEY" [] [⟨"alice", [⟨"OTHER", "secret"⟩]⟩]
      = .error (.createAccessKeyFailure "InvalidId") :=
  ⟨C5_resolution_errors.1 "ASIAKEY" _ _ "tokenB" (by decide) (by decide) (by decide),
   C5_resolution_errors.2.1 "AKIAKEY" _ _ (by decide) (by decide),
   C5_resolution_errors.2.2.1 "ASIAKEY" _ _ (by decide),
   C5_resolution_errors.2.2.2 "AKIAKEY" _ _ (by decide)⟩

/-- Claim C7: resolution classifies the caller as an IAM user exactly
when the access key id has the long-term `"AKIA"` prefix or the headers
carry no security-token header, and as an assumed role otherwise. -/
theorem C7_classification (access_key_id : String) (headers : StrMap)
    (iam_users : List IAMUser) (assumed_roles : List AssumedRole) :
    ((startswith access_key_id "AKIA" = true
        ∨ hcontains headers "X-Amz-Security-Token" = false) →
      create_access_key access_key_id headers iam_users assumed_roles
        = (IAMUserAccessKey_init access_key_id headers iam_users).map
            AccessKeyResult.iamUser)
    ∧ (startswith access_key_id "AKIA" = false →
        hcontains headers "X-Amz-Security-Token" = true →
        create_access_key access_key_id headers iam_users assumed_roles
          = (AssumedRoleAccessKey_init access_key_id headers assumed_roles).map
              AccessKeyResult.assumedRole) := by
  constructor
  · intro h
    rcases h with h | h <;> simp [create_access_key, h]
  · intro h1 h2
    simp [create_access_key, h1, h2]

/-- Witness for C7: a long-term key id resolves on the IAM-user path and
a session key id with a token header on the assumed-role path. -/
theorem C7_classification_witness :
    create_access_key "AKIA123" [] [] []
      = (IAMUserAccessKey_init "AKIA123" [] []).map AccessKeyResult.iamUser
    ∧ create_access_key "ASIA123" [("X-Amz-Security-Token", "t")] [] []
      = (AssumedRoleAccessKey_init "ASIA123" [("X-Amz-Security-Token", "t")] []).map
          AccessKeyResult.assumedRole :=
  ⟨(C7_classification "AKIA123" [] [] []).1 (Or.inl (by decide)),
   (C7_classification "ASIA123" [("X-Amz-Security-Token", "t")] [] []).2
     (by decide) (by decide)⟩

/-- `IAMUserAccessKey.__init__` never raises a `KeyError`: its only dict
access on the headers is a guarded membership test. -/
theorem IAMUserAccessKey_init_no_keyError (access_key_id : String) (headers : StrMap)
    (iam_users : List IAMUser) (key : String) :
    IAMUserAccessKey_init access_key_id headers iam_users ≠ .error (.keyError key) := by
  induction iam_users with
  | nil => simp [IAMUserAccessKey_init]
  | cons u rest ih =>
      cases hfind : u.access_keys.find? (fun k => k.access_key_id == access_key_id) with
      | some a =>
          by_cases ht : hcontains headers "X-Amz-Security-Token" = true
          · simp [IAMUserAccessKey_init, hfind, ht]
          · simp at ht
            simp [IAMUserAccessKey_init, hfind, ht]
      | none =>
          simp [IAMUserAccessKey_init, hfind]
          exact ih

/-- When the security-token header is present,
`AssumedRoleAccessKey.__init__` never raises a `KeyError`. -/
theorem AssumedRoleAccessKey_init_no_keyError (access_key_id : String) (headers : StrMap)
    (assumed_roles : List AssumedRole) (v key : String)
    (hv : hget headers "X-Amz-Security-Token" = some v) :
    AssumedRoleAccessKey_init access_key_id headers assumed_roles
      ≠ .error (.keyError key) := by
  induction assumed_roles with
  | nil => simp [AssumedRoleAccessKey_init]
  | cons r rest ih =>
      by_cases hr : (r.access_key_id == access_key_id) = true
      · by_cases hbne : (v != r.session_token) = true
        · simp [AssumedRoleAccessKey_init, hr, hv, hbne]
        · simp at hbne
          simp [AssumedRoleAccessKey_init, hr, hv, hbne]
      · simp at hr
        have hrb : (r.access_key_id == access_key_id) = false := by simp [hr]
        simp [AssumedRoleAccessKey_init, hrb]
        exact ih

/-- Claim C10: whenever resolution takes the assumed-role path, the
routing condition of `create_access_key` guarantees the security-token
header is present, so the unguarded lookup of `"X-Amz-Security-Token"`
in `AssumedRoleAccessKey.__init__` never raises a `KeyError`; resolution
as a whole never fails with a missing-key error. -/
theorem C10_no_key_error (access_key_id : String) (headers : StrMap)
    (iam_users : List IAMUser) (assumed_roles : List AssumedRole) (key : String) :
    create_access_key access_key_id headers iam_users assumed_roles
      ≠ .error (.keyError key) := by
  rw [create_access_key]
  by_cases hcond :
      (startswith access_key_id "AKIA" || ! hcontains headers "X-Amz-Security-Token") = true
  · rw [if_pos hcond]
    intro h
    cases hx : IAMUserAccessKey_init access_key_id headers iam_users with
    | ok a => simp [hx, Except.map] at h
    | error e =>
        rw [hx] at h
        simp [Except.map] at h
        exact IAMUserAccessKey_init_no_keyError access_key_id headers iam_users key
          (by rw [hx, h])
  · rw [if_neg hcond]
    have hcf : (startswith access_key_id "AKIA"
        || ! hcontains headers "X-Amz-Security-Token") = false := by
      simpa using hcond
    have hsome : (hget headers "X-Amz-Security-Token").isSome = true := by
      have h2 := (Bool.or_eq_false_iff.mp hcf).2
      simpa [hcontains] using h2
    obtain ⟨v, hv⟩ := Option.isSome_iff_exists.mp hsome
    intro h
    cases hx : AssumedRoleAccessKey_init access_key_id headers assumed_roles with
    | ok a => simp [hx, Except.map] at h
    | error e =>
        rw [hx] at h
        simp [Except.map] at h
        exact AssumedRoleAccessKey_init_no_keyError access_key_id headers assumed_roles
          v key hv (by rw [hx, h])

/-! ## Authorization-header parsing and the signature check -/

/-- The tail of Python's `s.partition(sep)`: everything after the first
occurrence of `sep`, or the empty string when `sep` does not occur. -/
def dropThroughSep (sep : List Char) : List Char → List Char
  | [] => []
  | x :: xs =>
      if sep.isPrefixOf (x :: xs) then (x :: xs).drop sep.length
      else dropThroughSep sep xs

/-- The head of Python's `s.partition(sep)`: everything before the first
occurrence of `sep`, or the whole string when `sep` does not occur. -/
def takeUntilSep (sep : List Char) : List Char → List Char
  | [] => []
  | x :: xs =>
      if sep.isPrefixOf (x :: xs) then []
      else x :: takeUntilSep sep xs

/-- `IAMRequestBase._get_string_between`: the part of `string` after the
first occurrence of `first_sep` and before the next occurrence of
`second_sep` (empty when `first_sep` is absent, running to the end when
`second_sep` is absent). -/
def get_string_between (first_sep second_sep string : String) : String :=
  ⟨takeUntilSep second_sep.data (dropThroughSep first_sep.data string.data)⟩

/-- Outcome of `IAMRequestBase.check_signature`: return normally or
raise `SignatureDoesNotMatchError`. -/
inductive CheckSignatureOutcome where
  | ok
  | signatureDoesNotMatchError
  deriving DecidableEq, Repr

/-- `IAMRequestBase.check_signature`: extract the `Signature=` component
of the `Authorization` header and compare it, by exact string equality,
to the signature recomputed by the delegated signer (an external
collaborator, so the recomputed string is a parameter here). -/
def check_signature (authorization_header calculated_signature : String) :
    CheckSignatureOutcome :=
  let original_signature := get_string_between "Signature=" "," authorization_header
  if original_signature != calculated_signature then .signatureDoesNotMatchError
  else .ok

/-- Claim C6: `check_signature` raises a signature-mismatch failure if
and only if the recomputed signature differs (case-sensitive string
inequality) from the `Signature=` component extracted from the
`Authorization` header, and returns normally exactly on equality. -/
theorem C6_signature_exact (authorization_header calculated_signature : String) :
    (check_signature authorization_header calculated_signature
        = .signatureDoesNotMatchError
      ↔ get_string_between "Signature=" "," authorization_header ≠ calculated_signature)
    ∧ (check_signature authorization_header calculated_signature = .ok
      ↔ get_string_between "Signature=" "," authorization_header = calculated_signature) := by
  by_cases h : get_string_between "Signature=" "," authorization_header
      = calculated_signature
  · simp [check_signature, h]
  · have hb : (get_string_between "Signature=" "," authorization_header
        != calculated_signature) = true := bne_iff_ne.mpr h
    simp [check_signature, hb]
    exact h

/-- Witness for C6: equal signatures pass, different signatures raise. -/
theorem C6_signature_exact_witness :
    check_signature "Credential=a/b/c/d, Signature=abc," "abc" = .ok
    ∧ check_signature "Credential=a/b/c/d, Signature=abc," "xyz"
        = .signatureDoesNotMatchError :=
  ⟨(C6_signature_exact "Credential=a/b/c/d, Signature=abc," "abc").2.mpr (by decide),
   (C6_signature_exact "Credential=a/b/c/d, Signature=abc," "xyz").1.mpr (by decide)⟩

/-! ## Credential-scope parsing (`IAMRequestBase.__init__`)

`__init__` extracts the credential scope from the `Authorization`
header, splits it on `/` and indexes components 2 (region), 3 (service)
and 0 (access key id) without any guard: on a scope with fewer than four
components the indexing raises a Python `IndexError`.  No
`MalformedAuthorizationHeader` exception exists in the code; the
constructor below is modelled from the spec, whose §7 error taxonomy
names such a kind, so that the claim about it can be stated. -/

/-- How `__init__`'s credential parsing can end besides success:
`indexError` models the uncaught Python `IndexError` from
`credential_data[i]`; `malformedAuthorizationHeader` is modelled from
the spec: its §7 taxonomy declares a typed
`MalformedAuthorizationHeader` kind that the source never defines or
raises. -/
inductive ParseFailure where
  | indexError
  | malformedAuthorizationHeader
  deriving DecidableEq, Repr

/-- Python's `s.split(sep)` for a one-character separator (the source
only splits on `'/'` and `';'`): always returns at least one piece, and
returns `[""]` on the empty string. -/
def pySplitChar (sep : Char) : List Char → List (List Char)
  | [] => [[]]
  | x :: xs =>
      if x = sep then [] :: pySplitChar sep xs
      else
        match pySplitChar sep xs with
        | [] => [[x]]
        | t :: ts => (x :: t) :: ts

/-- `s.split(sep)` on strings, for a one-character separator. -/
def pySplit (sep : Char) (s : String) : List String :=
  (pySplitChar sep s.data).map (fun l => (⟨l⟩ : String))

/-- `credential_scope.split('/')` of `IAMRequestBase.__init__`. -/
def parse_credential_data (authorization : String) : List String :=
  pySplit '/' (get_string_between "Credential=" "," authorization)

/-- The credential-scope part of `IAMRequestBase.__init__`: index the
split scope at 2 (region), 3 (service) and 0 (access key id), raising
`IndexError` when a component is missing. -/
def IAMRequestBase_parse_scope (authorization : String) :
    Except ParseFailure (String × String × String) :=
  let credential_data := parse_credential_data authorization
  match credential_data[2]? with
  | none => .error .indexError
  | some region =>
      match credential_data[3]? with
      | none => .error .indexError
      | some service => .ok (credential_data.headD "", region, service)

/-- `SignedHeaders=` extraction of `_create_aws_request`: a plain split
on `;`, which is total and cannot fail. -/
def parse_signed_headers (authorization : String) : List String :=
  pySplit ';' (get_string_between "SignedHeaders=" "," authorization)

/-- Counterexample to claim C8: on an `Authorization` header whose
credential scope `"abc"` has no region/service components, processing
fails with an uncaught Python `IndexError`, not with a typed
`MalformedAuthorizationHeader` error kind (which the code never
defines). -/
theorem C8_counterexample :
    IAMRequestBase_parse_scope "Credential=abc, SignedHeaders=host, Signature=xyz"
      = .error .indexError
    ∧ ParseFailure.indexError ≠ ParseFailure.malformedAuthorizationHeader := by
  constructor
  · rfl
  · decide

/-- Claim C8 as amended: a credential scope with fewer than four
slash-separated components makes `__init__` fail with an uncaught,
untyped `IndexError` — and that is the only parse failure: no input ever
produces a typed `MalformedAuthorizationHeader` kind, and the
signed-headers extraction is a total split that cannot fail. -/
theorem C8_index_error (authorization : String) :
    (IAMRequestBase_parse_scope authorization = .error .indexError
      ↔ (parse_credential_data authorization).length < 4)
    ∧ IAMRequestBase_parse_scope authorization
        ≠ .error .malformedAuthorizationHeader
    ∧ parse_signed_headers authorization
        = pySplit ';' (get_string_between "SignedHeaders=" "," authorization) := by
  refine ⟨?_, ?_, rfl⟩
  · cases h2 : (parse_credential_data authorization)[2]? with
    | none =>
        have hl : (parse_credential_data authorization).length ≤ 2 :=
          List.getElem?_eq_none_iff.mp h2
        simp [IAMRequestBase_parse_scope, h2]
        omega
    | some region =>
        cases h3 : (parse_credential_data authorization)[3]? with
        | none =>
            have hl : (parse_credential_data authorization).length ≤ 3 :=
              List.getElem?_eq_none_iff.mp h3
            simp [IAMRequestBase_parse_scope, h2, h3]
            omega
        | some service =>
            have hl : 3 < (parse_credential_data authorization).length :=
              (List.getElem?_eq_some_iff.mp h3).choose
            simp [IAMRequestBase_parse_scope, h2, h3]
            omega
  · cases h2 : (parse_credential_data authorization)[2]? with
    | none => simp [IAMRequestBase_parse_scope, h2]
    | some region =>
        cases h3 : (parse_credential_data authorization)[3]? with
        | none => simp [IAMRequestBase_parse_scope, h2, h3]
        | some service => simp [IAMRequestBase_parse_scope, h2, h3]

/-- Witness for C8 as amended: a three-component credential scope raises
the index error. -/
theorem C8_index_error_witness :
    IAMRequestBase_parse_scope "Credential=AKIA1/20200101/us-east-1, Signature=x"
      = .error .indexError :=
  (C8_index_error "Credential=AKIA1/20200101/us-east-1, Signature=x").1.mpr (by decide)

/-! ## Resource-scoped error flavor (`S3IAMRequest`) -/

/-- The errors `S3IAMRequest` can raise: each failure kind has a
resource-qualified variant naming the bucket and a resource-unaware
variant. -/
inductive S3ErrorKind where
  | bucketInvalidToken (bucket : String)
  | s3InvalidToken
  | bucketInvalidAccessKeyId (bucket : String)
  | s3InvalidAccessKeyId
  | bucketAccessDenied (bucket : String)
  | s3AccessDenied
  deriving DecidableEq, Repr

/-- Whether an `S3ErrorKind` is the resource-qualified variant. -/
def isResourceQualified : S3ErrorKind → Bool
  | .bucketInvalidToken _ => true
  | .bucketInvalidAccessKeyId _ => true
  | .bucketAccessDenied _ => true
  | _ => false

/-- `S3IAMRequest._raise_invalid_access_key`: pick the token or key
variant from the failure reason, bucket-qualified exactly when the
request data carries a `"BucketName"`. -/
def S3IAMRequest_raise_invalid_access_key (reason : String) (data : StrMap) :
    S3ErrorKind :=
  if reason = "InvalidToken" then
    match hget data "BucketName" with
    | some bucket => .bucketInvalidToken bucket
    | none => .s3InvalidToken
  else
    match hget data "BucketName" with
    | some bucket => .bucketInvalidAccessKeyId bucket
    | none => .s3InvalidAccessKeyId

/-- `S3IAMRequest._raise_access_denied`: bucket-qualified exactly when
the request data carries a `"BucketName"`. -/
def S3IAMRequest_raise_access_denied (data : StrMap) : S3ErrorKind :=
  match hget data "BucketName" with
  | some bucket => .bucketAccessDenied bucket
  | none => .s3AccessDenied

/-- Claim C9: for the resource-scoped (S3) error flavor, each of the
invalid-token, invalid-access-key and access-denied failures is reported
with its resource-qualified variant naming the bucket exactly when the
request data carries a `"BucketName"`, and with the resource-unaware
variant otherwise. -/
theorem C9_s3_error_flavor (data : StrMap) :
    (hget data "BucketName" = none →
      S3IAMRequest_raise_invalid_access_key "InvalidToken" data = .s3InvalidToken
      ∧ S3IAMRequest_raise_invalid_access_key "InvalidId" data = .s3InvalidAccessKeyId
      ∧ S3IAMRequest_raise_access_denied data = .s3AccessDenied)
    ∧ (∀ bucket : String, hget data "BucketName" = some bucket →
      S3IAMRequest_raise_invalid_access_key "InvalidToken" data
          = .bucketInvalidToken bucket
      ∧ S3IAMRequest_raise_invalid_access_key "InvalidId" data
          = .bucketInvalidAccessKeyId bucket
      ∧ S3IAMRequest_raise_access_denied data = .bucketAccessDenied bucket)
    ∧ (∀ reason : String,
      isResourceQualified (S3IAMRequest_raise_invalid_access_key reason data)
          = hcontains data "BucketName"
      ∧ isResourceQualified (S3IAMRequest_raise_access_denied data)
          = hcontains data "BucketName") := by
  refine ⟨?_, ?_, ?_⟩
  · intro h
    refine ⟨?_, ?_, ?_⟩ <;>
      simp [S3IAMRequest_raise_invalid_access_key, S3IAMRequest_raise_access_denied, h]
  · intro bucket h
    refine ⟨?_, ?_, ?_⟩ <;>
      simp [S3IAMRequest_raise_invalid_access_key, S3IAMRequest_raise_access_denied, h]
  · intro reason
    cases h : hget data "BucketName" with
    | none =>
        by_cases hr : reason = "InvalidToken" <;>
          simp [S3IAMRequest_raise_invalid_access_key, S3IAMRequest_raise_access_denied,
            isResourceQualified, hcontains, h, hr]
    | some bucket =>
        by_cases hr : reason = "InvalidToken" <;>
          simp [S3IAMRequest_raise_invalid_access_key, S3IAMRequest_raise_access_denied,
            isResourceQualified, hcontains, h, hr]

/-- Witness for C10: a session key id with a token header resolves on
the assumed-role path without any missing-key error. -/
theorem C10_no_key_error_witness :
    create_access_key "ASIA1" [("X-Amz-Security-Token", "t")] [] []
      ≠ .error (.keyError "X-Amz-Security-Token") :=
  C10_no_key_error "ASIA1" [("X-Amz-Security-Token", "t")] [] [] "X-Amz-Security-Token"

/-- Witness for C9: concrete request data with and without a bucket. -/
theorem C9_s3_error_flavor_witness :
    S3IAMRequest_raise_invalid_access_key "InvalidToken" [("BucketName", "mybucket")]
        = .bucketInvalidToken "mybucket"
    ∧ S3IAMRequest_raise_access_denied [("Action", "ListBucket")] = .s3AccessDenied :=
  ⟨((C9_s3_error_flavor [("BucketName", "mybucket")]).2.1 "mybucket" (by decide)).1,
   ((C9_s3_error_flavor [("Action", "ListBucket")]).1 (by decide)).2.2⟩

end Moto
